import Mathlib

/-!
# CG3: render-target and barrier controller

A shallow embedding of `RTVManager` (src/RTVManager.cpp, src/RTVManager.h) together with
the part of `TextureManager` (src/Engine/Texture/TextureManager.h) it relies on, and of
the particle update loop of `WinMain` (src/main.cpp).

The Direct3D objects are replaced by what the controller does to them: the command list
is the list of commands recorded so far, a GPU resource is named by the texture handle or
the swap-chain index it is fetched with, and `std::unordered_map<int32_t, int32_t>` is a
partial function whose `operator[]` inserts the value `0` for a key that is absent.
-/

namespace CG3

/-- The three resource states the controller uses:
`D3D12_RESOURCE_STATE_PIXEL_SHADER_RESOURCE`, `D3D12_RESOURCE_STATE_RENDER_TARGET` and
`D3D12_RESOURCE_STATE_PRESENT`. -/
inductive ResourceState where
  | ShaderReadable
  | RenderTargetWritable
  | PresentReady
  deriving DecidableEq, Repr

/-- A GPU resource as the controller names it: `TextureManager::GetResource(handle)` or
`swapChainResources_[index]`. -/
inductive Resource where
  | texture (handle : Int)
  | backBuffer (index : Nat)
  deriving DecidableEq, Repr

/-- A render-target view: `GetRTVHeap()->GetCPUHandle(slot)` or `rtvHandles_[index]`. -/
inductive RTView where
  | heapSlot (slot : Int)
  | swapChainView (index : Nat)
  deriving DecidableEq, Repr

/-- The commands the controller records into the command list. -/
inductive Command where
  | ResourceBarrier (pResource : Resource) (StateBefore StateAfter : ResourceState)
  | OMSetRenderTargets (rtv : RTView) (dsvSlot : Nat)
  | ClearRenderTargetView (rtv : RTView)
  deriving DecidableEq, Repr

/-- Capacity of the texture arrays, `kMaxTextureValue_` of TextureManager.h. -/
def kMaxTextureValue_ : Nat := 128

/-- The registry state the claims depend on: `uint32_t index_ = 1`, the next handle. -/
structure TextureManager where
  index_ : Nat
  deriving DecidableEq, Repr

/-- Creation-time failures of the registry named by the spec. -/
inductive TextureError where
  | DecodeError
  | RegistryFull
  deriving DecidableEq, Repr

/-- Modelled from the spec: the allocation path shared by `TextureManager::Load` and
`TextureManager::CreateEmptyTexture`, whose bodies are not among the sources (only
TextureManager.h is). Handles are issued in increasing order starting at `index_ = 1`;
after `kMaxTextureValue_` handles have been issued the call fails with `RegistryFull`
and leaves the registry unchanged. -/
def TextureManager.allocate (tm : TextureManager) : Except TextureError (Int × TextureManager) :=
  if tm.index_ ≤ kMaxTextureValue_ then
    .ok ((tm.index_ : Int), { index_ := tm.index_ + 1 })
  else
    .error .RegistryFull

/-- Modelled from the spec: `TextureManager::CreateEmptyTexture(width, height)`, declared in
TextureManager.h with its body missing from the sources. It returns a handle through the
same allocation path as `Load`. -/
def TextureManager.CreateEmptyTexture (_width _height : Nat) (tm : TextureManager) :
    Except TextureError (Int × TextureManager) :=
  tm.allocate

/-- Modelled from the spec: `TextureManager::Load(filePath, device)`, declared in
TextureManager.h with its body missing from the sources. `decodable` says whether the file
parses as an image; a file that does not fails with `DecodeError`. -/
def TextureManager.Load (decodable : Bool) (tm : TextureManager) :
    Except TextureError (Int × TextureManager) :=
  if decodable then tm.allocate else .error .DecodeError

/-- The registry as constructed: `index_ = 1`. -/
def TextureManager.initial : TextureManager := { index_ := 1 }

/-- The members of `RTVManager` (RTVManager.h). The `int32_t` members are integers:
handles and `rtvIndex` stay below `2 + kMaxTextureValue_` on every run
(`rtvIndex_bounded`), so no operation on them wraps. -/
structure RTVManager where
  rtvHandleMap : Int → Option Int
  rtvIndex : Int
  currentRenderTarget : Int

/-- What the controller touches of `DirectXBase`: the command list, the views written
into the render-target-view heap by `CreateRenderTargetView` (slot, resource), and the
value of `swapChain_->GetCurrentBackBufferIndex()`, which no call of the controller
changes (only presenting a frame does). -/
structure DirectXBase where
  commandList : List Command
  rtvHeap : List (Int × Resource)
  backBufferIndex : Nat
  deriving DecidableEq, Repr

/-- The process-wide singletons the controller works on. -/
structure Engine where
  tex : TextureManager
  rtv : RTVManager
  dx : DirectXBase

/-- Appends one command to the command list. -/
def DirectXBase.record (dx : DirectXBase) (c : Command) : DirectXBase :=
  { dx with commandList := dx.commandList ++ [c] }

/-- Assignment `m[k] = v` of `std::unordered_map`. -/
def mapAssign (m : Int → Option Int) (k v : Int) : Int → Option Int :=
  fun j => if j = k then some v else m j

/-- Reading `m[k]` of `std::unordered_map`: an absent key is inserted with value `0`. -/
def mapIndex (m : Int → Option Int) (k : Int) : Int × (Int → Option Int) :=
  match m k with
  | some v => (v, m)
  | none => (0, mapAssign m k 0)

namespace RTVManager

/-- The controller as constructed: no bindings, `rtvIndex = 2`, `currentRenderTarget = -1`. -/
def initial : RTVManager :=
  { rtvHandleMap := fun _ => none, rtvIndex := 2, currentRenderTarget := -1 }

/-- Embedding of `RTVManager::CreateRenderTargetTexture` (RTVManager.cpp:12-31). A failure of the
registry is passed on with the engine unchanged. -/
def CreateRenderTargetTexture (width height : Nat) (e : Engine) :
    Except TextureError Int × Engine :=
  match e.tex.CreateEmptyTexture width height with
  | .error err => (.error err, e)
  | .ok (emptyTexture, tex1) =>
    let rtvHandleMap1 := mapAssign e.rtv.rtvHandleMap emptyTexture e.rtv.rtvIndex
    let dx1 : DirectXBase :=
      { e.dx with rtvHeap := e.dx.rtvHeap ++ [(e.rtv.rtvIndex, Resource.texture emptyTexture)] }
    (.ok emptyTexture,
      { tex := tex1
        rtv := { rtvHandleMap := rtvHandleMap1
                 rtvIndex := e.rtv.rtvIndex + 1
                 currentRenderTarget := e.rtv.currentRenderTarget }
        dx := dx1 })

/-- Embedding of `RTVManager::ResetResourceBarrier` (RTVManager.cpp:86-106). -/
def ResetResourceBarrier (e : Engine) : Engine :=
  let rt := e.rtv.currentRenderTarget
  if rt < 0 then
    let backBufferIndex := e.dx.backBufferIndex
    let dx1 := e.dx.record
      (.ResourceBarrier (.backBuffer backBufferIndex) .RenderTargetWritable .PresentReady)
    { tex := e.tex, rtv := e.rtv, dx := dx1 }
  else
    let dx1 := e.dx.record
      (.ResourceBarrier (.texture rt) .RenderTargetWritable .ShaderReadable)
    { tex := e.tex, rtv := e.rtv, dx := dx1 }

/-- Embedding of `RTVManager::SetRenderTarget` (RTVManager.cpp:33-54). -/
def SetRenderTarget (textureHandle : Int) (e : Engine) : Engine :=
  let e1 := ResetResourceBarrier e
  let dx2 := e1.dx.record
    (.ResourceBarrier (.texture textureHandle) .ShaderReadable .RenderTargetWritable)
  let slot := mapIndex e1.rtv.rtvHandleMap textureHandle
  let dx3 := dx2.record (.OMSetRenderTargets (.heapSlot slot.1) 0)
  { tex := e1.tex
    rtv := { rtvHandleMap := slot.2
             rtvIndex := e1.rtv.rtvIndex
             currentRenderTarget := textureHandle }
    dx := dx3 }

/-- Embedding of `RTVManager::SetRTtoBB` (RTVManager.cpp:56-84). -/
def SetRTtoBB (e : Engine) : Engine :=
  let e1 := ResetResourceBarrier e
  let backBufferIndex := e1.dx.backBufferIndex
  let dx2 := e1.dx.record
    (.ResourceBarrier (.backBuffer backBufferIndex) .PresentReady .RenderTargetWritable)
  let dx3 := dx2.record (.OMSetRenderTargets (.swapChainView backBufferIndex) 0)
  { tex := e1.tex
    rtv := { rtvHandleMap := e1.rtv.rtvHandleMap
             rtvIndex := e1.rtv.rtvIndex
             currentRenderTarget := -1 }
    dx := dx3 }

/-- Embedding of `RTVManager::ClearRTV` (RTVManager.cpp:108-116). The clear colour is
the same constant in every call and is left out of the recorded command. -/
def ClearRTV (textureHandle : Int) (e : Engine) : Engine :=
  let slot := mapIndex e.rtv.rtvHandleMap textureHandle
  { tex := e.tex
    rtv := { rtvHandleMap := slot.2
             rtvIndex := e.rtv.rtvIndex
             currentRenderTarget := e.rtv.currentRenderTarget }
    dx := e.dx.record (.ClearRenderTargetView (.heapSlot slot.1)) }

end RTVManager

/-- The engine before any call: fresh registry, fresh controller, empty command list,
and the swap chain showing back buffer `backBufferIndex`. -/
def Engine.initial (backBufferIndex : Nat) : Engine :=
  { tex := TextureManager.initial
    rtv := RTVManager.initial
    dx := { commandList := [], rtvHeap := [], backBufferIndex := backBufferIndex } }

/-- The resource named by `currentRenderTarget`: the back buffer of the current index
when it is negative, the texture of that handle otherwise (the test of
`ResetResourceBarrier`). -/
def Engine.currentResource (e : Engine) : Resource :=
  if e.rtv.currentRenderTarget < 0 then .backBuffer e.dx.backBufferIndex
  else .texture e.rtv.currentRenderTarget

/-- State of a resource before any barrier: an offscreen texture is `ShaderReadable`,
a back buffer is `PresentReady`. -/
def initialState : Resource → ResourceState
  | .texture _ => .ShaderReadable
  | .backBuffer _ => .PresentReady

/-- Effect of one command on the tracked states: a barrier moves its resource to
`StateAfter`, every other command leaves the states alone. -/
def applyCommand (σ : Resource → ResourceState) : Command → Resource → ResourceState
  | .ResourceBarrier res _ after => fun r => if r = res then after else σ r
  | _ => σ

/-- The tracked state of every resource after a command stream: the `StateAfter` of the
last barrier recorded on it, or its initial state. -/
def trackedState (cmds : List Command) : Resource → ResourceState :=
  cmds.foldl applyCommand initialState

/-- The barriers of a command stream whose `StateBefore` differs from the state their
resource is in at that point, starting from the tracked states `σ`. -/
def desynced (σ : Resource → ResourceState) : List Command → List Command
  | [] => []
  | .ResourceBarrier res before after :: cs =>
    if σ res = before then
      desynced (applyCommand σ (.ResourceBarrier res before after)) cs
    else
      .ResourceBarrier res before after ::
        desynced (applyCommand σ (.ResourceBarrier res before after)) cs
  | c :: cs => desynced (applyCommand σ c) cs

/-- The barriers in a command stream, in order. -/
def barriers : List Command → List Command
  | [] => []
  | .ResourceBarrier res before after :: cs => .ResourceBarrier res before after :: barriers cs
  | _ :: cs => barriers cs

/-- A public call on the registry or the controller. -/
inductive Call where
  | Load (decodable : Bool)
  | CreateRenderTargetTexture (width height : Nat)
  | SetRenderTarget (textureHandle : Int)
  | SetRTtoBB
  | ResetResourceBarrier
  | ClearRTV (textureHandle : Int)
  deriving DecidableEq, Repr

/-- An engine together with the handles `CreateRenderTargetTexture` has returned so far,
oldest first. -/
structure Trace where
  engine : Engine
  created : List Int

/-- Runs one call. -/
def Trace.step (t : Trace) : Call → Trace
  | .Load decodable =>
    match t.engine.tex.Load decodable with
    | .ok (_, tex1) => { t with engine := { t.engine with tex := tex1 } }
    | .error _ => t
  | .CreateRenderTargetTexture width height =>
    match RTVManager.CreateRenderTargetTexture width height t.engine with
    | (.ok handle, e1) => { engine := e1, created := t.created ++ [handle] }
    | (.error _, e1) => { t with engine := e1 }
  | .SetRenderTarget textureHandle =>
    { t with engine := RTVManager.SetRenderTarget textureHandle t.engine }
  | .SetRTtoBB => { t with engine := RTVManager.SetRTtoBB t.engine }
  | .ResetResourceBarrier => { t with engine := RTVManager.ResetResourceBarrier t.engine }
  | .ClearRTV textureHandle =>
    { t with engine := RTVManager.ClearRTV textureHandle t.engine }

/-- Runs a sequence of calls, first call first. -/
def Trace.run (t : Trace) (cs : List Call) : Trace :=
  cs.foldl Trace.step t

/-- The trace before any call. -/
def Trace.initial (backBufferIndex : Nat) : Trace :=
  { engine := Engine.initial backBufferIndex, created := [] }

/-- A call is admissible when a `SetRenderTarget` names a handle that
`CreateRenderTargetTexture` has returned. -/
def Trace.admits (t : Trace) : Call → Bool
  | .SetRenderTarget textureHandle => decide (textureHandle ∈ t.created)
  | _ => true

/-- Admissible sequences: every `SetRenderTarget` in it names a handle created earlier. -/
def Trace.admissible (t : Trace) : List Call → Bool
  | [] => true
  | c :: cs => t.admits c && (t.step c).admissible cs

/-- A call on the registry alone. -/
inductive TexCall where
  | Load (decodable : Bool)
  | CreateEmptyTexture (width height : Nat)
  deriving DecidableEq, Repr

/-- Runs one registry call. -/
def TexCall.apply (tm : TextureManager) : TexCall → Except TextureError (Int × TextureManager)
  | .Load decodable => tm.Load decodable
  | .CreateEmptyTexture width height => tm.CreateEmptyTexture width height

/-- The handles returned by a sequence of registry calls, in call order (a failed call
returns none and leaves the registry as it is). -/
def returnedHandles (tm : TextureManager) : List TexCall → List Int
  | [] => []
  | c :: cs =>
    match c.apply tm with
    | .ok (handle, tm1) => handle :: returnedHandles tm1 cs
    | .error _ => returnedHandles tm cs

/-- What holds of every command stream the controller records: a texture is never
tracked as `PresentReady`, a back buffer never as `ShaderReadable`, and a barrier whose
`StateBefore` is out of step with the tracked state is a barrier out of
`RenderTargetWritable`. -/
structure StreamInv (cmds : List Command) : Prop where
  texture_state : ∀ h, trackedState cmds (.texture h) ≠ .PresentReady
  backBuffer_state : ∀ i, trackedState cmds (.backBuffer i) ≠ .ShaderReadable
  undo_only : ∀ c ∈ desynced initialState cmds,
    ∃ res after, c = Command.ResourceBarrier res .RenderTargetWritable after

/-- Invariant of the traces that admissible call sequences reach. -/
structure Trace.Consistent (t : Trace) : Prop where
  index_pos : 1 ≤ t.engine.tex.index_
  created_pos : ∀ h ∈ t.created, 1 ≤ h ∧ h < t.engine.tex.index_
  stream : StreamInv t.engine.dx.commandList
  writable_current : ∀ r, trackedState t.engine.dx.commandList r = .RenderTargetWritable →
    r = t.engine.currentResource

/-- Bookkeeping of the bindings along a run: `rtvIndex` is 2 plus the number of created
targets, the registry has issued no more handles than its capacity, and the `k`-th
created handle is bound to slot `2 + k` unless the registry returned the same handle
again later. -/
structure Trace.SlotsOk (t : Trace) : Prop where
  index_eq : t.engine.rtv.rtvIndex = 2 + (t.created.length : Int)
  count_le : t.created.length + 1 ≤ t.engine.tex.index_
  index_le : t.engine.tex.index_ ≤ kMaxTextureValue_ + 1
  last_wins : ∀ (k : Nat) (h : Int), t.created[k]? = some h →
    (∀ j : Nat, k < j → t.created[j]? ≠ some h) →
    t.engine.rtv.rtvHandleMap h = some (2 + (k : Int))

/-- Whether a registry call gets past decoding: every `CreateEmptyTexture`, and a `Load`
of a file that parses. -/
def TexCall.decodes : TexCall → Bool
  | .Load decodable => decodable
  | .CreateEmptyTexture _ _ => true

/-- Whether a call passes a texture handle of the data model, where a `TextureHandle`
is at least 0: the handle of a `SetRenderTarget` is not negative. Every other call
passes. -/
def Call.handleNonneg : Call → Bool
  | .SetRenderTarget textureHandle => decide (0 ≤ textureHandle)
  | _ => true

/-! ### Particle update loop of `WinMain` (src/main.cpp:353-385) -/

/-- Capacity of the instancing buffer, `instancingBuffer.numMaxInstance_`, set by
`StructuredBuffer<ParticleForGPU> instancingBuffer(100)` (main.cpp:156). -/
def numMaxInstance_ : Nat := 100

/-- The time step `kDeltaTime = 1.0f / 60.0f` (main.cpp:121). -/
def kDeltaTime : Rat := 1 / 60

/-- The members of `Particle` the loop branches on. The `float` times are rationals; the
transform, velocity and colour only flow into the values written, never into an index. -/
structure Particle where
  lifeTime : Rat
  currentTime : Rat
  deriving DecidableEq, Repr

/-- A write into `instancingBuffer.data_`: the copy of `WVP`, `World` and `color` into
`data_[index]` (main.cpp:369-371), or the write of `data_[index].color.w`
(main.cpp:381). -/
inductive BufferWrite where
  | copy (index : Nat)
  | alpha (index : Nat)
  deriving DecidableEq, Repr

/-- The index of `data_` a write goes to. -/
def BufferWrite.index : BufferWrite → Nat
  | .copy index => index
  | .alpha index => index

/-- The variables of the loop: `numInstance`, the writes into `data_` so far (oldest
first), and the particles kept in the list so far. -/
structure ParticleLoop where
  numInstance : Nat
  writes : List BufferWrite
  particles : List Particle
  deriving DecidableEq, Repr

/-- One iteration of the loop body (main.cpp:356-384) on the particle under the iterator. -/
def particleIteration (isParticleUpdate : Bool) (s : ParticleLoop) (particle : Particle) :
    ParticleLoop :=
  if particle.lifeTime ≤ particle.currentTime then
    s
  else
    let s1 : ParticleLoop :=
      if s.numInstance < numMaxInstance_ then
        { numInstance := s.numInstance + 1
          writes := s.writes ++ [BufferWrite.copy s.numInstance]
          particles := s.particles }
      else s
    if isParticleUpdate then
      { numInstance := s1.numInstance
        writes := s1.writes ++ [BufferWrite.alpha s1.numInstance]
        particles := s1.particles ++
          [{ lifeTime := particle.lifeTime, currentTime := particle.currentTime + kDeltaTime }] }
    else
      { numInstance := s1.numInstance
        writes := s1.writes
        particles := s1.particles ++ [particle] }

/-- The whole loop of one frame, from `numInstance = 0` over the particle list. -/
def particleUpdateLoop (isParticleUpdate : Bool) (particles : List Particle) : ParticleLoop :=
  particles.foldl (particleIteration isParticleUpdate)
    { numInstance := 0, writes := [], particles := [] }

/-! ## Single calls of the controller -/

/-- C1: for every engine state and every handle with a binding `slot`, `SetRenderTarget`
appends the undo barrier of the previous target (back buffer to `PresentReady` when
`currentRenderTarget < 0`, texture `g` to `ShaderReadable` when `currentRenderTarget = g >= 0`),
then the barrier of the new target from `ShaderReadable` to `RenderTargetWritable`, then
one bind-targets command on the bound view slot and depth slot 0, in this order, and
leaves `currentRenderTarget` equal to the handle. -/
theorem SetRenderTarget_records (e : Engine) (textureHandle slot : Int)
    (hbound : e.rtv.rtvHandleMap textureHandle = some slot) :
    (e.rtv.currentRenderTarget < 0 →
      (RTVManager.SetRenderTarget textureHandle e).dx.commandList =
        e.dx.commandList ++
          [Command.ResourceBarrier (.backBuffer e.dx.backBufferIndex)
              .RenderTargetWritable .PresentReady,
           Command.ResourceBarrier (.texture textureHandle)
              .ShaderReadable .RenderTargetWritable,
           Command.OMSetRenderTargets (.heapSlot slot) 0]) ∧
    (0 ≤ e.rtv.currentRenderTarget →
      (RTVManager.SetRenderTarget textureHandle e).dx.commandList =
        e.dx.commandList ++
          [Command.ResourceBarrier (.texture e.rtv.currentRenderTarget)
              .RenderTargetWritable .ShaderReadable,
           Command.ResourceBarrier (.texture textureHandle)
              .ShaderReadable .RenderTargetWritable,
           Command.OMSetRenderTargets (.heapSlot slot) 0]) ∧
    (RTVManager.SetRenderTarget textureHandle e).rtv.currentRenderTarget = textureHandle := by
  refine ⟨?_, ?_, rfl⟩
  · intro hcur
    simp [RTVManager.SetRenderTarget, RTVManager.ResetResourceBarrier, DirectXBase.record,
      mapIndex, hbound, hcur]
  · intro hcur
    have hn : ¬ e.rtv.currentRenderTarget < 0 := not_lt.mpr hcur
    simp [RTVManager.SetRenderTarget, RTVManager.ResetResourceBarrier, DirectXBase.record,
      mapIndex, hbound, hn]

/-- Witness of C1: binding the first created render target on a fresh engine. -/
theorem SetRenderTarget_records_witness :
    (RTVManager.CreateRenderTargetTexture 640 360 (Engine.initial 0)).2.rtv.rtvHandleMap 1
        = some 2 ∧
    (RTVManager.SetRenderTarget 1
        (RTVManager.CreateRenderTargetTexture 640 360 (Engine.initial 0)).2).dx.commandList =
      [Command.ResourceBarrier (.backBuffer 0) .RenderTargetWritable .PresentReady,
       Command.ResourceBarrier (.texture 1) .ShaderReadable .RenderTargetWritable,
       Command.OMSetRenderTargets (.heapSlot 2) 0] :=
  ⟨rfl, (SetRenderTarget_records
    (RTVManager.CreateRenderTargetTexture 640 360 (Engine.initial 0)).2 1 2 rfl).1
      (by decide)⟩

/-- C2: when an offscreen texture is the current render target, `SetRTtoBB` appends the
barrier of that texture from `RenderTargetWritable` to `ShaderReadable`, then the barrier
of the current back buffer from `PresentReady` to `RenderTargetWritable`, then one
bind-targets command on that back buffer view and depth slot 0, and nothing else; it sets
`currentRenderTarget` to -1. -/
theorem SetRTtoBB_records (e : Engine) (hcur : 0 ≤ e.rtv.currentRenderTarget) :
    (RTVManager.SetRTtoBB e).dx.commandList =
      e.dx.commandList ++
        [Command.ResourceBarrier (.texture e.rtv.currentRenderTarget)
            .RenderTargetWritable .ShaderReadable,
         Command.ResourceBarrier (.backBuffer e.dx.backBufferIndex)
            .PresentReady .RenderTargetWritable,
         Command.OMSetRenderTargets (.swapChainView e.dx.backBufferIndex) 0] ∧
    (RTVManager.SetRTtoBB e).rtv.currentRenderTarget = -1 := by
  have hn : ¬ e.rtv.currentRenderTarget < 0 := not_lt.mpr hcur
  refine ⟨?_, rfl⟩
  simp [RTVManager.SetRTtoBB, RTVManager.ResetResourceBarrier, DirectXBase.record, hn]

/-- Witness of C2: going back to the back buffer after binding the first created target. -/
theorem SetRTtoBB_records_witness :
    (RTVManager.SetRTtoBB (RTVManager.SetRenderTarget 1
        (RTVManager.CreateRenderTargetTexture 640 360 (Engine.initial 0)).2)).dx.commandList =
      [Command.ResourceBarrier (.backBuffer 0) .RenderTargetWritable .PresentReady,
       Command.ResourceBarrier (.texture 1) .ShaderReadable .RenderTargetWritable,
       Command.OMSetRenderTargets (.heapSlot 2) 0] ++
      [Command.ResourceBarrier (.texture 1) .RenderTargetWritable .ShaderReadable,
       Command.ResourceBarrier (.backBuffer 0) .PresentReady .RenderTargetWritable,
       Command.OMSetRenderTargets (.swapChainView 0) 0] :=
  (SetRTtoBB_records (RTVManager.SetRenderTarget 1
    (RTVManager.CreateRenderTargetTexture 640 360 (Engine.initial 0)).2) (by decide)).1

/-- C3: `ResetResourceBarrier` appends exactly one command, the barrier of the current
target out of `RenderTargetWritable` (back buffer to `PresentReady` when
`currentRenderTarget < 0`, texture to `ShaderReadable` otherwise), and changes neither
`currentRenderTarget`, nor the handle map, nor `rtvIndex`, nor anything else. -/
theorem ResetResourceBarrier_records (e : Engine) :
    (e.rtv.currentRenderTarget < 0 →
      (RTVManager.ResetResourceBarrier e).dx.commandList =
        e.dx.commandList ++
          [Command.ResourceBarrier (.backBuffer e.dx.backBufferIndex)
              .RenderTargetWritable .PresentReady]) ∧
    (0 ≤ e.rtv.currentRenderTarget →
      (RTVManager.ResetResourceBarrier e).dx.commandList =
        e.dx.commandList ++
          [Command.ResourceBarrier (.texture e.rtv.currentRenderTarget)
              .RenderTargetWritable .ShaderReadable]) ∧
    (RTVManager.ResetResourceBarrier e).rtv.currentRenderTarget = e.rtv.currentRenderTarget ∧
    (RTVManager.ResetResourceBarrier e).rtv.rtvHandleMap = e.rtv.rtvHandleMap ∧
    (RTVManager.ResetResourceBarrier e).rtv.rtvIndex = e.rtv.rtvIndex ∧
    (RTVManager.ResetResourceBarrier e).tex = e.tex ∧
    (RTVManager.ResetResourceBarrier e).dx.rtvHeap = e.dx.rtvHeap ∧
    (RTVManager.ResetResourceBarrier e).dx.backBufferIndex = e.dx.backBufferIndex := by
  by_cases hcur : e.rtv.currentRenderTarget < 0
  · have hn : ¬ 0 ≤ e.rtv.currentRenderTarget := not_le.mpr hcur
    simp [RTVManager.ResetResourceBarrier, DirectXBase.record, hcur, hn]
  · have hp : 0 ≤ e.rtv.currentRenderTarget := not_lt.mp hcur
    simp [RTVManager.ResetResourceBarrier, DirectXBase.record, hcur, hp]

/-- Witness of C3: on a fresh engine the single barrier is the one of the back buffer. -/
theorem ResetResourceBarrier_records_witness :
    (RTVManager.ResetResourceBarrier (Engine.initial 1)).dx.commandList =
      [] ++ [Command.ResourceBarrier (.backBuffer 1) .RenderTargetWritable .PresentReady] :=
  (ResetResourceBarrier_records (Engine.initial 1)).1 (by decide)

/-- C4, as the claim states it, fails: on a fresh engine handle 7 has no binding, and
`ClearRTV 7` still appends a clear command (against view slot 0). -/
theorem ClearRTV_records_clear_counterexample :
    (Engine.initial 0).rtv.rtvHandleMap 7 = none ∧
    (RTVManager.ClearRTV 7 (Engine.initial 0)).dx.commandList =
      [Command.ClearRenderTargetView (.heapSlot 0)] ∧
    (RTVManager.ClearRTV 7 (Engine.initial 0)).dx.commandList ≠
      (Engine.initial 0).dx.commandList := by
  refine ⟨rfl, rfl, ?_⟩
  decide

/-- C4 amended: `ClearRTV` has no failure path. For a handle without a binding it appends
exactly one clear command, against view slot 0, the value `operator[]` inserts for the
handle; every other binding, `rtvIndex` and `currentRenderTarget` stay as they are. -/
theorem ClearRTV_unbound (e : Engine) (textureHandle : Int)
    (hunbound : e.rtv.rtvHandleMap textureHandle = none) :
    (RTVManager.ClearRTV textureHandle e).dx.commandList =
      e.dx.commandList ++ [Command.ClearRenderTargetView (.heapSlot 0)] ∧
    (RTVManager.ClearRTV textureHandle e).rtv.rtvHandleMap textureHandle = some 0 ∧
    (∀ k, k ≠ textureHandle →
      (RTVManager.ClearRTV textureHandle e).rtv.rtvHandleMap k = e.rtv.rtvHandleMap k) ∧
    (RTVManager.ClearRTV textureHandle e).rtv.rtvIndex = e.rtv.rtvIndex ∧
    (RTVManager.ClearRTV textureHandle e).rtv.currentRenderTarget =
      e.rtv.currentRenderTarget := by
  refine ⟨?_, ?_, ?_, rfl, rfl⟩
  · simp [RTVManager.ClearRTV, DirectXBase.record, mapIndex, hunbound]
  · simp [RTVManager.ClearRTV, mapIndex, hunbound, mapAssign]
  · intro k hk
    simp [RTVManager.ClearRTV, mapIndex, hunbound, mapAssign, hk]

/-- Witness of C4 amended: clearing the unbound handle 7 on a fresh engine. -/
theorem ClearRTV_unbound_witness :
    (Engine.initial 0).rtv.rtvHandleMap 7 = none ∧
    (RTVManager.ClearRTV 7 (Engine.initial 0)).rtv.rtvHandleMap 7 = some 0 :=
  ⟨rfl, (ClearRTV_unbound (Engine.initial 0) 7 rfl).2.1⟩

/-- C5, as the claim states it, fails: on a fresh engine the handle returned by
`CreateRenderTargetTexture` is 1, and `SetRenderTarget 1` records two barriers, the first
of them on the back buffer. -/
theorem SetRenderTarget_fresh_counterexample :
    (RTVManager.CreateRenderTargetTexture 640 360 (Engine.initial 0)).1 = .ok 1 ∧
    barriers (RTVManager.SetRenderTarget 1
        (RTVManager.CreateRenderTargetTexture 640 360 (Engine.initial 0)).2).dx.commandList =
      [Command.ResourceBarrier (.backBuffer 0) .RenderTargetWritable .PresentReady,
       Command.ResourceBarrier (.texture 1) .ShaderReadable .RenderTargetWritable] ∧
    (barriers (RTVManager.SetRenderTarget 1
        (RTVManager.CreateRenderTargetTexture 640 360 (Engine.initial 0)).2).dx.commandList).length
      ≠ 1 := by
  refine ⟨rfl, rfl, ?_⟩
  decide

/-- C5 amended: when the back-buffer sentinel is current and `CreateRenderTargetTexture`
has just returned a handle, `SetRenderTarget` on it records exactly two barriers, first the
undo barrier of the back buffer (`RenderTargetWritable` to `PresentReady`), then the
barrier of the handle (`ShaderReadable` to `RenderTargetWritable`), and exactly one
bind-targets command, on the view slot the handle was bound to. -/
theorem SetRenderTarget_after_create (e e1 : Engine) (width height : Nat) (handle : Int)
    (hcur : e.rtv.currentRenderTarget = -1)
    (hcreate : RTVManager.CreateRenderTargetTexture width height e = (.ok handle, e1)) :
    (RTVManager.SetRenderTarget handle e1).dx.commandList =
      e.dx.commandList ++
        [Command.ResourceBarrier (.backBuffer e.dx.backBufferIndex)
            .RenderTargetWritable .PresentReady,
         Command.ResourceBarrier (.texture handle) .ShaderReadable .RenderTargetWritable,
         Command.OMSetRenderTargets (.heapSlot e.rtv.rtvIndex) 0] := by
  unfold RTVManager.CreateRenderTargetTexture at hcreate
  cases hc : e.tex.CreateEmptyTexture width height with
  | error err => simp [hc] at hcreate
  | ok p =>
    obtain ⟨hd, tex1⟩ := p
    simp only [hc, Prod.mk.injEq, Except.ok.injEq] at hcreate
    obtain ⟨rfl, rfl⟩ := hcreate
    simp [RTVManager.SetRenderTarget, RTVManager.ResetResourceBarrier, DirectXBase.record,
      mapIndex, mapAssign, hcur]

/-- Witness of C5 amended: the fresh engine with back buffer 0. -/
theorem SetRenderTarget_after_create_witness :
    (RTVManager.SetRenderTarget 1
        (RTVManager.CreateRenderTargetTexture 640 360 (Engine.initial 0)).2).dx.commandList =
      [] ++
        [Command.ResourceBarrier (.backBuffer 0) .RenderTargetWritable .PresentReady,
         Command.ResourceBarrier (.texture 1) .ShaderReadable .RenderTargetWritable,
         Command.OMSetRenderTargets (.heapSlot 2) 0] :=
  SetRenderTarget_after_create (Engine.initial 0)
    (RTVManager.CreateRenderTargetTexture 640 360 (Engine.initial 0)).2 640 360 1 rfl rfl

/-! ## Tracked resource states -/

theorem trackedState_append (cs cs2 : List Command) :
    trackedState (cs ++ cs2) = cs2.foldl applyCommand (trackedState cs) := by
  simp [trackedState, List.foldl_append]

theorem desynced_append (σ : Resource → ResourceState) (cs cs2 : List Command) :
    desynced σ (cs ++ cs2) = desynced σ cs ++ desynced (cs.foldl applyCommand σ) cs2 := by
  induction cs generalizing σ with
  | nil => simp [desynced]
  | cons c cs ih =>
    cases c with
    | ResourceBarrier res before after =>
      by_cases h : σ res = before <;> simp [desynced, h, ih]
    | OMSetRenderTargets rtv dsv => simp [desynced, ih]
    | ClearRenderTargetView rtv => simp [desynced, ih]

theorem StreamInv.nil : StreamInv [] :=
  ⟨by intro h; simp [trackedState, initialState],
   by intro i; simp [trackedState, initialState],
   by simp [desynced]⟩

/-- A barrier out of `RenderTargetWritable` to the resting state of its resource keeps
the stream invariant and leaves that resource not writable. -/
theorem StreamInv.undo {cmds : List Command} (hs : StreamInv cmds) (res : Resource) :
    StreamInv (cmds ++ [Command.ResourceBarrier res .RenderTargetWritable (initialState res)]) ∧
    (∀ r, trackedState
        (cmds ++ [Command.ResourceBarrier res .RenderTargetWritable (initialState res)]) r =
      if r = res then initialState res else trackedState cmds r) := by
  have htr : ∀ r, trackedState
        (cmds ++ [Command.ResourceBarrier res .RenderTargetWritable (initialState res)]) r =
      if r = res then initialState res else trackedState cmds r := by
    intro r
    simp [trackedState_append, applyCommand]
  refine ⟨⟨?_, ?_, ?_⟩, htr⟩
  · intro h
    rw [htr]
    split
    · next heq => subst heq; simp [initialState]
    · exact hs.texture_state h
  · intro i
    rw [htr]
    split
    · next heq => subst heq; simp [initialState]
    · exact hs.backBuffer_state i
  · intro c hc
    rw [desynced_append] at hc
    rcases List.mem_append.mp hc with hc | hc
    · exact hs.undo_only c hc
    · simp only [desynced] at hc
      split at hc
      · simp at hc
      · simp only [List.mem_singleton] at hc
        exact ⟨res, initialState res, hc⟩

/-- A barrier into `RenderTargetWritable` from the resting state of a resource that is
not writable keeps the stream invariant and makes that resource writable. -/
theorem StreamInv.bind {cmds : List Command} (hs : StreamInv cmds) (res : Resource)
    (hnw : trackedState cmds res ≠ .RenderTargetWritable) :
    StreamInv (cmds ++ [Command.ResourceBarrier res (initialState res) .RenderTargetWritable]) ∧
    (∀ r, trackedState
        (cmds ++ [Command.ResourceBarrier res (initialState res) .RenderTargetWritable]) r =
      if r = res then .RenderTargetWritable else trackedState cmds r) := by
  have htr : ∀ r, trackedState
        (cmds ++ [Command.ResourceBarrier res (initialState res) .RenderTargetWritable]) r =
      if r = res then .RenderTargetWritable else trackedState cmds r := by
    intro r
    simp [trackedState_append, applyCommand]
  have hrest : trackedState cmds res = initialState res := by
    cases res with
    | texture h =>
      have := hs.texture_state h
      cases hst : trackedState cmds (.texture h) <;> simp_all [initialState]
    | backBuffer i =>
      have := hs.backBuffer_state i
      cases hst : trackedState cmds (.backBuffer i) <;> simp_all [initialState]
  refine ⟨⟨?_, ?_, ?_⟩, htr⟩
  · intro h
    rw [htr]
    split
    · simp
    · exact hs.texture_state h
  · intro i
    rw [htr]
    split
    · simp
    · exact hs.backBuffer_state i
  · intro c hc
    rw [desynced_append] at hc
    rcases List.mem_append.mp hc with hc | hc
    · exact hs.undo_only c hc
    · simp only [desynced] at hc
      rw [if_pos (by simpa [trackedState] using hrest)] at hc
      simp at hc

/-- A command that is no barrier keeps the stream invariant and every tracked state. -/
theorem StreamInv.other {cmds : List Command} (hs : StreamInv cmds) (c : Command)
    (hc : ∀ res before after, c ≠ Command.ResourceBarrier res before after) :
    StreamInv (cmds ++ [c]) ∧ trackedState (cmds ++ [c]) = trackedState cmds := by
  have htr : trackedState (cmds ++ [c]) = trackedState cmds := by
    cases c with
    | ResourceBarrier res before after => exact absurd rfl (hc res before after)
    | OMSetRenderTargets rtv dsv => simp [trackedState_append, applyCommand]
    | ClearRenderTargetView rtv => simp [trackedState_append, applyCommand]
  refine ⟨⟨?_, ?_, ?_⟩, htr⟩
  · intro h; rw [htr]; exact hs.texture_state h
  · intro i; rw [htr]; exact hs.backBuffer_state i
  · intro d hd
    rw [desynced_append] at hd
    rcases List.mem_append.mp hd with hd | hd
    · exact hs.undo_only d hd
    · cases c with
      | ResourceBarrier res before after => exact absurd rfl (hc res before after)
      | OMSetRenderTargets rtv dsv => simp [desynced] at hd
      | ClearRenderTargetView rtv => simp [desynced] at hd

/-! ## The calls on a consistent engine -/

theorem initialState_ne_writable (res : Resource) :
    initialState res ≠ .RenderTargetWritable := by
  cases res <;> simp [initialState]

theorem ResetResourceBarrier_commandList (e : Engine) :
    (RTVManager.ResetResourceBarrier e).dx.commandList =
      e.dx.commandList ++ [Command.ResourceBarrier e.currentResource
        .RenderTargetWritable (initialState e.currentResource)] := by
  by_cases hcur : e.rtv.currentRenderTarget < 0 <;>
    simp [RTVManager.ResetResourceBarrier, DirectXBase.record, Engine.currentResource,
      initialState, hcur]

theorem SetRenderTarget_commandList (e : Engine) (textureHandle : Int) :
    (RTVManager.SetRenderTarget textureHandle e).dx.commandList =
      ((RTVManager.ResetResourceBarrier e).dx.commandList ++
        [Command.ResourceBarrier (.texture textureHandle)
          (initialState (.texture textureHandle)) .RenderTargetWritable]) ++
        [Command.OMSetRenderTargets
          (.heapSlot (mapIndex e.rtv.rtvHandleMap textureHandle).1) 0] := by
  by_cases hcur : e.rtv.currentRenderTarget < 0 <;>
    simp [RTVManager.SetRenderTarget, RTVManager.ResetResourceBarrier, DirectXBase.record,
      initialState, hcur]

theorem SetRTtoBB_commandList (e : Engine) :
    (RTVManager.SetRTtoBB e).dx.commandList =
      ((RTVManager.ResetResourceBarrier e).dx.commandList ++
        [Command.ResourceBarrier (.backBuffer e.dx.backBufferIndex)
          (initialState (.backBuffer e.dx.backBufferIndex)) .RenderTargetWritable]) ++
        [Command.OMSetRenderTargets (.swapChainView e.dx.backBufferIndex) 0] := by
  by_cases hcur : e.rtv.currentRenderTarget < 0 <;>
    simp [RTVManager.SetRTtoBB, RTVManager.ResetResourceBarrier, DirectXBase.record,
      initialState, hcur]

theorem ResetResourceBarrier_tex (e : Engine) :
    (RTVManager.ResetResourceBarrier e).tex = e.tex := by
  by_cases hcur : e.rtv.currentRenderTarget < 0 <;>
    simp [RTVManager.ResetResourceBarrier, hcur]

theorem SetRenderTarget_tex (e : Engine) (textureHandle : Int) :
    (RTVManager.SetRenderTarget textureHandle e).tex = e.tex := by
  simp [RTVManager.SetRenderTarget, ResetResourceBarrier_tex]

theorem SetRTtoBB_tex (e : Engine) : (RTVManager.SetRTtoBB e).tex = e.tex := by
  simp [RTVManager.SetRTtoBB, ResetResourceBarrier_tex]

/-- After the undo barrier no resource is tracked as writable. -/
theorem ResetResourceBarrier_ok (e : Engine) (hs : StreamInv e.dx.commandList)
    (hw : ∀ r, trackedState e.dx.commandList r = .RenderTargetWritable →
      r = e.currentResource) :
    StreamInv (RTVManager.ResetResourceBarrier e).dx.commandList ∧
    ∀ r, trackedState (RTVManager.ResetResourceBarrier e).dx.commandList r ≠
      .RenderTargetWritable := by
  rw [ResetResourceBarrier_commandList]
  obtain ⟨h1, h2⟩ := hs.undo e.currentResource
  refine ⟨h1, ?_⟩
  intro r
  rw [h2]
  split
  · exact initialState_ne_writable _
  · next hne => exact fun hr => hne (hw r hr)

theorem SetRenderTarget_ok (e : Engine) (textureHandle : Int) (hpos : 0 ≤ textureHandle)
    (hs : StreamInv e.dx.commandList)
    (hw : ∀ r, trackedState e.dx.commandList r = .RenderTargetWritable →
      r = e.currentResource) :
    StreamInv (RTVManager.SetRenderTarget textureHandle e).dx.commandList ∧
    ∀ r, trackedState (RTVManager.SetRenderTarget textureHandle e).dx.commandList r =
        .RenderTargetWritable →
      r = (RTVManager.SetRenderTarget textureHandle e).currentResource := by
  obtain ⟨h1, h2⟩ := ResetResourceBarrier_ok e hs hw
  obtain ⟨h3, h4⟩ := h1.bind (.texture textureHandle) (h2 _)
  obtain ⟨h5, h6⟩ := h3.other (Command.OMSetRenderTargets
    (.heapSlot (mapIndex e.rtv.rtvHandleMap textureHandle).1) 0) (by intro _ _ _ h; cases h)
  rw [SetRenderTarget_commandList]
  refine ⟨h5, ?_⟩
  intro r hr
  rw [h6, h4] at hr
  have hcur : (RTVManager.SetRenderTarget textureHandle e).currentResource =
      .texture textureHandle := by
    simp [Engine.currentResource, RTVManager.SetRenderTarget, not_lt.mpr hpos]
  rw [hcur]
  by_contra hne
  rw [if_neg hne] at hr
  exact h2 r hr

theorem SetRTtoBB_ok (e : Engine) (hs : StreamInv e.dx.commandList)
    (hw : ∀ r, trackedState e.dx.commandList r = .RenderTargetWritable →
      r = e.currentResource) :
    StreamInv (RTVManager.SetRTtoBB e).dx.commandList ∧
    ∀ r, trackedState (RTVManager.SetRTtoBB e).dx.commandList r = .RenderTargetWritable →
      r = (RTVManager.SetRTtoBB e).currentResource := by
  obtain ⟨h1, h2⟩ := ResetResourceBarrier_ok e hs hw
  obtain ⟨h3, h4⟩ := h1.bind (.backBuffer e.dx.backBufferIndex) (h2 _)
  obtain ⟨h5, h6⟩ := h3.other (Command.OMSetRenderTargets
    (.swapChainView e.dx.backBufferIndex) 0) (by intro _ _ _ h; cases h)
  rw [SetRTtoBB_commandList]
  refine ⟨h5, ?_⟩
  intro r hr
  rw [h6, h4] at hr
  have hcur : (RTVManager.SetRTtoBB e).currentResource =
      .backBuffer e.dx.backBufferIndex := by
    by_cases hc : e.rtv.currentRenderTarget < 0 <;>
      simp [Engine.currentResource, RTVManager.SetRTtoBB, RTVManager.ResetResourceBarrier,
        DirectXBase.record, hc]
  rw [hcur]
  by_contra hne
  rw [if_neg hne] at hr
  exact h2 r hr

theorem ClearRTV_ok (e : Engine) (textureHandle : Int) (hs : StreamInv e.dx.commandList)
    (hw : ∀ r, trackedState e.dx.commandList r = .RenderTargetWritable →
      r = e.currentResource) :
    StreamInv (RTVManager.ClearRTV textureHandle e).dx.commandList ∧
    ∀ r, trackedState (RTVManager.ClearRTV textureHandle e).dx.commandList r =
        .RenderTargetWritable →
      r = (RTVManager.ClearRTV textureHandle e).currentResource := by
  obtain ⟨h5, h6⟩ := hs.other (Command.ClearRenderTargetView
    (.heapSlot (mapIndex e.rtv.rtvHandleMap textureHandle).1)) (by intro _ _ _ h; cases h)
  have hcmd : (RTVManager.ClearRTV textureHandle e).dx.commandList =
      e.dx.commandList ++ [Command.ClearRenderTargetView
        (.heapSlot (mapIndex e.rtv.rtvHandleMap textureHandle).1)] := by
    simp [RTVManager.ClearRTV, DirectXBase.record]
  rw [hcmd]
  refine ⟨h5, ?_⟩
  intro r hr
  rw [h6] at hr
  exact hw r hr

theorem CreateRenderTargetTexture_ok_eq (e : Engine) (width height : Nat)
    (hcap : e.tex.index_ ≤ kMaxTextureValue_) :
    RTVManager.CreateRenderTargetTexture width height e =
      (.ok (e.tex.index_ : Int),
        { tex := { index_ := e.tex.index_ + 1 }
          rtv := { rtvHandleMap := mapAssign e.rtv.rtvHandleMap e.tex.index_ e.rtv.rtvIndex
                   rtvIndex := e.rtv.rtvIndex + 1
                   currentRenderTarget := e.rtv.currentRenderTarget }
          dx := { commandList := e.dx.commandList
                  rtvHeap := e.dx.rtvHeap ++ [(e.rtv.rtvIndex, Resource.texture e.tex.index_)]
                  backBufferIndex := e.dx.backBufferIndex } }) := by
  simp [RTVManager.CreateRenderTargetTexture, TextureManager.CreateEmptyTexture,
    TextureManager.allocate, hcap]

theorem CreateRenderTargetTexture_full_eq (e : Engine) (width height : Nat)
    (hcap : ¬ e.tex.index_ ≤ kMaxTextureValue_) :
    RTVManager.CreateRenderTargetTexture width height e = (.error .RegistryFull, e) := by
  simp [RTVManager.CreateRenderTargetTexture, TextureManager.CreateEmptyTexture,
    TextureManager.allocate, hcap]

theorem Trace.consistent_initial (backBufferIndex : Nat) :
    (Trace.initial backBufferIndex).Consistent where
  index_pos := by simp [Trace.initial, Engine.initial, TextureManager.initial]
  created_pos := by simp [Trace.initial]
  stream := StreamInv.nil
  writable_current := by
    intro r hr
    cases r <;> simp [Trace.initial, Engine.initial, trackedState, initialState] at hr

theorem Trace.consistent_step {t : Trace} (ht : t.Consistent) (c : Call)
    (hadm : t.admits c = true) : (t.step c).Consistent := by
  cases c with
  | Load decodable =>
    by_cases hcap : t.engine.tex.index_ ≤ kMaxTextureValue_ <;> cases decodable <;>
      simp only [Trace.step, TextureManager.Load, TextureManager.allocate, hcap] <;>
      first
        | exact ht
        | exact ⟨by simp, fun h hh => ⟨(ht.created_pos h hh).1, by
              have := (ht.created_pos h hh).2
              show h < ((t.engine.tex.index_ + 1 : Nat) : Int)
              omega⟩, ht.stream, ht.writable_current⟩
  | CreateRenderTargetTexture width height =>
    by_cases hcap : t.engine.tex.index_ ≤ kMaxTextureValue_
    · simp only [Trace.step, CreateRenderTargetTexture_ok_eq _ _ _ hcap]
      refine ⟨by simp, ?_, ht.stream, ht.writable_current⟩
      intro h hh
      show 1 ≤ h ∧ h < ((t.engine.tex.index_ + 1 : Nat) : Int)
      rcases List.mem_append.mp hh with hh | hh
      · have := ht.created_pos h hh
        omega
      · simp only [List.mem_singleton] at hh
        have := ht.index_pos
        omega
    · simp only [Trace.step, CreateRenderTargetTexture_full_eq _ _ _ hcap]
      exact ht
  | SetRenderTarget textureHandle =>
    have hmem : textureHandle ∈ t.created := by simpa [Trace.admits] using hadm
    have hpos : 0 ≤ textureHandle := by
      have := ht.created_pos textureHandle hmem
      omega
    obtain ⟨h1, h2⟩ := SetRenderTarget_ok t.engine textureHandle hpos ht.stream
      ht.writable_current
    have htex := SetRenderTarget_tex t.engine textureHandle
    exact ⟨htex ▸ ht.index_pos, htex ▸ ht.created_pos, h1, h2⟩
  | SetRTtoBB =>
    obtain ⟨h1, h2⟩ := SetRTtoBB_ok t.engine ht.stream ht.writable_current
    have htex := SetRTtoBB_tex t.engine
    exact ⟨htex ▸ ht.index_pos, htex ▸ ht.created_pos, h1, h2⟩
  | ResetResourceBarrier =>
    obtain ⟨h1, h2⟩ := ResetResourceBarrier_ok t.engine ht.stream ht.writable_current
    have htex := ResetResourceBarrier_tex t.engine
    exact ⟨htex ▸ ht.index_pos, htex ▸ ht.created_pos, h1, fun r hr => absurd hr (h2 r)⟩
  | ClearRTV textureHandle =>
    obtain ⟨h1, h2⟩ := ClearRTV_ok t.engine textureHandle ht.stream ht.writable_current
    exact ⟨ht.index_pos, ht.created_pos, h1, h2⟩

theorem Trace.consistent_run {t : Trace} (ht : t.Consistent) (cs : List Call)
    (hadm : t.admissible cs = true) : (t.run cs).Consistent := by
  induction cs generalizing t with
  | nil => exact ht
  | cons c cs ih =>
    simp only [Trace.admissible, Bool.and_eq_true] at hadm
    exact ih (Trace.consistent_step ht c hadm.1) hadm.2

theorem Trace.admissible_take (t : Trace) (cs : List Call) (n : Nat)
    (hadm : t.admissible cs = true) : t.admissible (cs.take n) = true := by
  induction cs generalizing t n with
  | nil => simp [Trace.admissible]
  | cons c cs ih =>
    cases n with
    | zero => simp [Trace.admissible]
    | succ n =>
      simp only [Trace.admissible, Bool.and_eq_true, List.take_succ_cons] at hadm ⊢
      exact ⟨hadm.1, ih _ n hadm.2⟩

/-! ## Call sequences from the initial state -/

/-- C6: on a fresh engine, for every width and height, `CreateRenderTargetTexture` returns
a handle, and after `SetRenderTarget` on it, `SetRTtoBB` and `ResetResourceBarrier` the
back buffer is tracked `PresentReady`, the created texture `ShaderReadable`, and no
resource `RenderTargetWritable`. -/
theorem create_bind_backbuffer_restore (backBufferIndex width height : Nat) :
    ∃ handle e1,
      RTVManager.CreateRenderTargetTexture width height (Engine.initial backBufferIndex) =
        (.ok handle, e1) ∧
      trackedState (RTVManager.ResetResourceBarrier (RTVManager.SetRTtoBB
          (RTVManager.SetRenderTarget handle e1))).dx.commandList
        (.backBuffer backBufferIndex) = .PresentReady ∧
      trackedState (RTVManager.ResetResourceBarrier (RTVManager.SetRTtoBB
          (RTVManager.SetRenderTarget handle e1))).dx.commandList
        (.texture handle) = .ShaderReadable ∧
      ∀ r, trackedState (RTVManager.ResetResourceBarrier (RTVManager.SetRTtoBB
          (RTVManager.SetRenderTarget handle e1))).dx.commandList r ≠
        .RenderTargetWritable := by
  refine ⟨1, (RTVManager.CreateRenderTargetTexture width height
    (Engine.initial backBufferIndex)).2, rfl, ?_⟩
  have hcmds : (RTVManager.ResetResourceBarrier (RTVManager.SetRTtoBB
      (RTVManager.SetRenderTarget 1 (RTVManager.CreateRenderTargetTexture width height
        (Engine.initial backBufferIndex)).2))).dx.commandList =
      [Command.ResourceBarrier (.backBuffer backBufferIndex) .RenderTargetWritable
          .PresentReady,
       Command.ResourceBarrier (.texture 1) .ShaderReadable .RenderTargetWritable,
       Command.OMSetRenderTargets (.heapSlot 2) 0,
       Command.ResourceBarrier (.texture 1) .RenderTargetWritable .ShaderReadable,
       Command.ResourceBarrier (.backBuffer backBufferIndex) .PresentReady
          .RenderTargetWritable,
       Command.OMSetRenderTargets (.swapChainView backBufferIndex) 0,
       Command.ResourceBarrier (.backBuffer backBufferIndex) .RenderTargetWritable
          .PresentReady] := rfl
  rw [hcmds]
  refine ⟨by simp [trackedState, applyCommand], by simp [trackedState, applyCommand], ?_⟩
  intro r
  cases r with
  | texture h =>
    by_cases hh : h = 1 <;> simp [trackedState, applyCommand, initialState, hh]
  | backBuffer i =>
    by_cases hi : i = backBufferIndex <;> simp [trackedState, applyCommand, initialState, hi]

/-- C7: after every call of an admissible call sequence from the initial state (every
prefix `cs.take n` of the sequence), a resource tracked as `RenderTargetWritable` is the
resource named by `currentRenderTarget`; hence at most one resource is writable. -/
theorem at_most_one_writable (backBufferIndex : Nat) (cs : List Call)
    (hadm : (Trace.initial backBufferIndex).admissible cs = true) (n : Nat) :
    (∀ r, trackedState
          ((Trace.initial backBufferIndex).run (cs.take n)).engine.dx.commandList r =
        .RenderTargetWritable →
      r = ((Trace.initial backBufferIndex).run (cs.take n)).engine.currentResource) ∧
    (∀ r1 r2,
      trackedState ((Trace.initial backBufferIndex).run (cs.take n)).engine.dx.commandList r1 =
        .RenderTargetWritable →
      trackedState ((Trace.initial backBufferIndex).run (cs.take n)).engine.dx.commandList r2 =
        .RenderTargetWritable →
      r1 = r2) := by
  have hc := Trace.consistent_run (Trace.consistent_initial backBufferIndex) (cs.take n)
    (Trace.admissible_take _ cs n hadm)
  refine ⟨hc.writable_current, ?_⟩
  intro r1 r2 h1 h2
  rw [hc.writable_current r1 h1, hc.writable_current r2 h2]

/-- Witness of C7: after creating a target and binding it (the first two calls of a
four-call frame) the writable texture 1 is the current resource. -/
theorem at_most_one_writable_witness :
    (Trace.initial 0).admissible
        [Call.CreateRenderTargetTexture 640 360, Call.SetRenderTarget 1, Call.SetRTtoBB,
         Call.ResetResourceBarrier] = true ∧
    Resource.texture 1 = ((Trace.initial 0).run
        ([Call.CreateRenderTargetTexture 640 360, Call.SetRenderTarget 1, Call.SetRTtoBB,
          Call.ResetResourceBarrier].take 2)).engine.currentResource :=
  ⟨by decide, (at_most_one_writable 0
    [Call.CreateRenderTargetTexture 640 360, Call.SetRenderTarget 1, Call.SetRTtoBB,
      Call.ResetResourceBarrier] (by decide) 2).1 (.texture 1) rfl⟩

/-- C8, as the claim states it, fails: from the initial state the first barrier of
`SetRenderTarget` on a freshly created target, and likewise the barrier of a lone
`ResetResourceBarrier`, has `StateBefore = RenderTargetWritable` on the back buffer, which
is `PresentReady` at that point. -/
theorem barrier_desync_counterexample :
    (Trace.initial 0).admissible
        [Call.CreateRenderTargetTexture 640 360, Call.SetRenderTarget 1] = true ∧
    [Call.CreateRenderTargetTexture 640 360, Call.SetRenderTarget 1].all
        Call.handleNonneg = true ∧
    desynced initialState ((Trace.initial 0).run
        [Call.CreateRenderTargetTexture 640 360, Call.SetRenderTarget 1]).engine.dx.commandList =
      [Command.ResourceBarrier (.backBuffer 0) .RenderTargetWritable .PresentReady] ∧
    initialState (.backBuffer 0) = .PresentReady ∧
    desynced initialState
        ((Trace.initial 0).run [Call.ResetResourceBarrier]).engine.dx.commandList =
      [Command.ResourceBarrier (.backBuffer 0) .RenderTargetWritable .PresentReady] := by
  refine ⟨by decide, by decide, ?_, rfl, ?_⟩ <;> rfl

/-! ## Render-target bindings -/

theorem mapIndex_keeps (m : Int → Option Int) (h k v : Int) (hk : m k = some v) :
    (mapIndex m h).2 k = some v := by
  unfold mapIndex
  cases hm : m h with
  | some w => simpa using hk
  | none =>
    have hne : k ≠ h := by
      intro heq
      rw [heq, hm] at hk
      cases hk
    simp [mapAssign, hne, hk]

theorem ResetResourceBarrier_rtv (e : Engine) :
    (RTVManager.ResetResourceBarrier e).rtv = e.rtv := by
  by_cases hcur : e.rtv.currentRenderTarget < 0 <;>
    simp [RTVManager.ResetResourceBarrier, hcur]

theorem Trace.step_Load_ok (t : Trace) (decodable : Bool) (hd : decodable = true)
    (hcap : t.engine.tex.index_ ≤ kMaxTextureValue_) :
    t.step (.Load decodable) =
      { engine := { tex := { index_ := t.engine.tex.index_ + 1 }
                    rtv := t.engine.rtv
                    dx := t.engine.dx }
        created := t.created } := by
  simp [Trace.step, TextureManager.Load, TextureManager.allocate, hd, hcap]

theorem Trace.step_Load_fail (t : Trace) (decodable : Bool)
    (hfail : ¬ (decodable = true ∧ t.engine.tex.index_ ≤ kMaxTextureValue_)) :
    t.step (.Load decodable) = t := by
  cases decodable with
  | false => simp [Trace.step, TextureManager.Load]
  | true =>
    have hcap : ¬ t.engine.tex.index_ ≤ kMaxTextureValue_ := fun h => hfail ⟨rfl, h⟩
    simp [Trace.step, TextureManager.Load, TextureManager.allocate, hcap]

theorem Trace.slotsOk_initial (backBufferIndex : Nat) :
    (Trace.initial backBufferIndex).SlotsOk where
  index_eq := by simp [Trace.initial, Engine.initial, RTVManager.initial]
  count_le := by simp [Trace.initial, Engine.initial, TextureManager.initial]
  index_le := by simp [Trace.initial, Engine.initial, TextureManager.initial, kMaxTextureValue_]
  last_wins := by simp [Trace.initial]

theorem Trace.slotsOk_step {t : Trace} (ht : t.SlotsOk) (c : Call) : (t.step c).SlotsOk := by
  cases c with
  | Load decodable =>
    by_cases hcap : decodable = true ∧ t.engine.tex.index_ ≤ kMaxTextureValue_
    · rw [Trace.step_Load_ok t decodable hcap.1 hcap.2]
      refine ⟨ht.index_eq, ?_, ?_, ht.last_wins⟩
      · show t.created.length + 1 ≤ t.engine.tex.index_ + 1
        have := ht.count_le
        omega
      · show t.engine.tex.index_ + 1 ≤ kMaxTextureValue_ + 1
        omega
    · rw [Trace.step_Load_fail t decodable hcap]
      exact ht
  | CreateRenderTargetTexture width height =>
    by_cases hcap : t.engine.tex.index_ ≤ kMaxTextureValue_
    · simp only [Trace.step, CreateRenderTargetTexture_ok_eq _ _ _ hcap]
      refine ⟨?_, ?_, ?_, ?_⟩
      · show t.engine.rtv.rtvIndex + 1 = 2 + ((t.created ++ [(t.engine.tex.index_ : Int)]).length : Int)
        have := ht.index_eq
        simp only [List.length_append, List.length_singleton, Nat.cast_add, Nat.cast_one]
        omega
      · show (t.created ++ [(t.engine.tex.index_ : Int)]).length + 1 ≤ t.engine.tex.index_ + 1
        have := ht.count_le
        simp only [List.length_append, List.length_singleton]
        omega
      · show t.engine.tex.index_ + 1 ≤ _
        omega
      · intro k h hk hlater
        show mapAssign t.engine.rtv.rtvHandleMap (t.engine.tex.index_ : Int)
          t.engine.rtv.rtvIndex h = some (2 + (k : Int))
        change (t.created ++ [(t.engine.tex.index_ : Int)])[k]? = some h at hk
        change ∀ j, k < j → (t.created ++ [(t.engine.tex.index_ : Int)])[j]? ≠ some h at hlater
        by_cases hlt : k < t.created.length
        · rw [List.getElem?_append_left hlt] at hk
          have hne : h ≠ (t.engine.tex.index_ : Int) := by
            intro heq
            apply hlater t.created.length hlt
            rw [List.getElem?_concat_length, heq]
          have hold : ∀ j, k < j → t.created[j]? ≠ some h := by
            intro j hj hjh
            apply hlater j hj
            have hjlt : j < t.created.length := by
              rcases List.getElem?_eq_some.mp hjh with ⟨hj2, _⟩
              exact hj2
            rw [List.getElem?_append_left hjlt]
            exact hjh
          simp only [mapAssign, hne, if_false]
          exact ht.last_wins k h hk hold
        · have hge : t.created.length ≤ k := not_lt.mp hlt
          rw [List.getElem?_append_right hge] at hk
          have hk0 : k - t.created.length = 0 := by
            by_contra hpos
            have h1 : 1 ≤ k - t.created.length := Nat.one_le_iff_ne_zero.mpr hpos
            have hnone : [(t.engine.tex.index_ : Int)][k - t.created.length]? = none :=
              List.getElem?_eq_none (by simpa using h1)
            rw [hnone] at hk
            cases hk
          rw [hk0] at hk
          simp only [List.getElem?_cons_zero, Option.some.injEq] at hk
          have hkeq : k = t.created.length := by omega
          subst hk
          simp only [mapAssign, if_true]
          rw [ht.index_eq, hkeq]
    · simp only [Trace.step, CreateRenderTargetTexture_full_eq _ _ _ hcap]
      exact ht
  | SetRenderTarget textureHandle =>
    have htex := SetRenderTarget_tex t.engine textureHandle
    refine ⟨?_, htex ▸ ht.count_le, htex ▸ ht.index_le, ?_⟩
    · show (RTVManager.ResetResourceBarrier t.engine).rtv.rtvIndex = _
      rw [ResetResourceBarrier_rtv]
      exact ht.index_eq
    · intro k h hk hlater
      show (mapIndex (RTVManager.ResetResourceBarrier t.engine).rtv.rtvHandleMap
        textureHandle).2 h = _
      rw [ResetResourceBarrier_rtv]
      exact mapIndex_keeps _ _ _ _ (ht.last_wins k h hk hlater)
  | SetRTtoBB =>
    have htex := SetRTtoBB_tex t.engine
    refine ⟨?_, htex ▸ ht.count_le, htex ▸ ht.index_le, ?_⟩
    · show (RTVManager.ResetResourceBarrier t.engine).rtv.rtvIndex = _
      rw [ResetResourceBarrier_rtv]
      exact ht.index_eq
    · intro k h hk hlater
      show (RTVManager.ResetResourceBarrier t.engine).rtv.rtvHandleMap h = _
      rw [ResetResourceBarrier_rtv]
      exact ht.last_wins k h hk hlater
  | ResetResourceBarrier =>
    have htex := ResetResourceBarrier_tex t.engine
    have hrtv := ResetResourceBarrier_rtv t.engine
    refine ⟨?_, htex ▸ ht.count_le, htex ▸ ht.index_le, ?_⟩
    · show (RTVManager.ResetResourceBarrier t.engine).rtv.rtvIndex = _
      rw [hrtv]
      exact ht.index_eq
    · intro k h hk hlater
      show (RTVManager.ResetResourceBarrier t.engine).rtv.rtvHandleMap h = _
      rw [hrtv]
      exact ht.last_wins k h hk hlater
  | ClearRTV textureHandle =>
    refine ⟨ht.index_eq, ht.count_le, ht.index_le, ?_⟩
    intro k h hk hlater
    exact mapIndex_keeps _ _ _ _ (ht.last_wins k h hk hlater)

theorem Trace.slotsOk_run {t : Trace} (ht : t.SlotsOk) (cs : List Call) :
    (t.run cs).SlotsOk := by
  induction cs generalizing t with
  | nil => exact ht
  | cons c cs ih => exact ih (Trace.slotsOk_step ht c)

/-- On every run `rtvIndex` stays at most `2 + kMaxTextureValue_`, far inside `int32_t`:
the increment of `CreateRenderTargetTexture` never overflows. -/
theorem rtvIndex_bounded (backBufferIndex : Nat) (cs : List Call) :
    2 ≤ ((Trace.initial backBufferIndex).run cs).engine.rtv.rtvIndex ∧
    ((Trace.initial backBufferIndex).run cs).engine.rtv.rtvIndex ≤ 2 + kMaxTextureValue_ := by
  have h := Trace.slotsOk_run (Trace.slotsOk_initial backBufferIndex) cs
  have h1 := h.index_eq
  have h2 := h.count_le
  have h3 := h.index_le
  omega

/-- C9: `CreateRenderTargetTexture` returns the handle `CreateEmptyTexture` produced, binds
it to the value of `rtvIndex` and then increments `rtvIndex`, leaving the other bindings
alone. Hence on every run from the initial state in which the created handles are
pairwise distinct, the `k`-th created handle is bound to slot `2 + k`, two different
created handles have different slots, and no created handle is bound to slot 0 or 1. -/
theorem created_bindings_one_to_one :
    (∀ (e : Engine) (width height : Nat) (handle : Int) (tex1 : TextureManager),
      e.tex.CreateEmptyTexture width height = .ok (handle, tex1) →
        (RTVManager.CreateRenderTargetTexture width height e).1 = .ok handle ∧
        (RTVManager.CreateRenderTargetTexture width height e).2.rtv.rtvHandleMap handle =
          some e.rtv.rtvIndex ∧
        (RTVManager.CreateRenderTargetTexture width height e).2.rtv.rtvIndex =
          e.rtv.rtvIndex + 1 ∧
        (∀ k, k ≠ handle →
          (RTVManager.CreateRenderTargetTexture width height e).2.rtv.rtvHandleMap k =
            e.rtv.rtvHandleMap k)) ∧
    (∀ (backBufferIndex : Nat) (cs : List Call),
      ((Trace.initial backBufferIndex).run cs).created.Nodup →
        (∀ (k : Nat) (h : Int), ((Trace.initial backBufferIndex).run cs).created[k]? = some h →
          ((Trace.initial backBufferIndex).run cs).engine.rtv.rtvHandleMap h =
            some (2 + (k : Int))) ∧
        (∀ h1 ∈ ((Trace.initial backBufferIndex).run cs).created,
          ∀ h2 ∈ ((Trace.initial backBufferIndex).run cs).created, h1 ≠ h2 →
            ((Trace.initial backBufferIndex).run cs).engine.rtv.rtvHandleMap h1 ≠
              ((Trace.initial backBufferIndex).run cs).engine.rtv.rtvHandleMap h2) ∧
        (∀ h ∈ ((Trace.initial backBufferIndex).run cs).created,
          ((Trace.initial backBufferIndex).run cs).engine.rtv.rtvHandleMap h ≠ some 0 ∧
          ((Trace.initial backBufferIndex).run cs).engine.rtv.rtvHandleMap h ≠ some 1)) := by
  constructor
  · intro e width height handle tex1 hreg
    refine ⟨?_, ?_, ?_, ?_⟩
    · simp [RTVManager.CreateRenderTargetTexture, hreg]
    · simp [RTVManager.CreateRenderTargetTexture, hreg, mapAssign]
    · simp [RTVManager.CreateRenderTargetTexture, hreg]
    · intro k hk
      simp [RTVManager.CreateRenderTargetTexture, hreg, mapAssign, hk]
  · intro backBufferIndex cs hnodup
    have hs := Trace.slotsOk_run (Trace.slotsOk_initial backBufferIndex) cs
    have hslot : ∀ (k : Nat) (h : Int),
        ((Trace.initial backBufferIndex).run cs).created[k]? = some h →
        ((Trace.initial backBufferIndex).run cs).engine.rtv.rtvHandleMap h =
          some (2 + (k : Int)) := by
      intro k h hk
      apply hs.last_wins k h hk
      intro j hkj hj
      rcases List.getElem?_eq_some.mp hj with ⟨hjlt, _⟩
      exact (List.nodup_iff_getElem?_ne_getElem?.mp hnodup k j hkj hjlt) (hk.trans hj.symm)
    refine ⟨hslot, ?_, ?_⟩
    · intro h1 hm1 h2 hm2 hne
      obtain ⟨k1, hk1⟩ := List.mem_iff_getElem?.mp hm1
      obtain ⟨k2, hk2⟩ := List.mem_iff_getElem?.mp hm2
      rw [hslot k1 h1 hk1, hslot k2 h2 hk2]
      intro heq
      have hk : k1 = k2 := by
        have := Option.some.inj heq
        omega
      subst hk
      rw [hk1] at hk2
      exact hne (Option.some.inj hk2)
    · intro h hm
      obtain ⟨k, hk⟩ := List.mem_iff_getElem?.mp hm
      rw [hslot k h hk]
      constructor
      · intro heq
        have := Option.some.inj heq
        omega
      · intro heq
        have := Option.some.inj heq
        omega

/-- Witness of C9: two created targets, with other calls in between, are bound to slots
2 and 3. -/
theorem created_bindings_one_to_one_witness :
    ((Trace.initial 0).run
        [Call.CreateRenderTargetTexture 640 360, Call.ClearRTV 9, Call.SetRenderTarget 1,
         Call.CreateRenderTargetTexture 1280 720]).created = [1, 2] ∧
    ((Trace.initial 0).run
        [Call.CreateRenderTargetTexture 640 360, Call.ClearRTV 9, Call.SetRenderTarget 1,
         Call.CreateRenderTargetTexture 1280 720]).engine.rtv.rtvHandleMap 2 =
      some (2 + ((1 : Nat) : Int)) :=
  ⟨rfl, (created_bindings_one_to_one.2 0
    [Call.CreateRenderTargetTexture 640 360, Call.ClearRTV 9, Call.SetRenderTarget 1,
     Call.CreateRenderTargetTexture 1280 720] (by decide)).1 1 2 rfl⟩

/-! ## Handles of the registry -/

theorem returnedHandles_increasing (tm : TextureManager) (cs : List TexCall) :
    (∀ h ∈ returnedHandles tm cs, (tm.index_ : Int) ≤ h) ∧
    (returnedHandles tm cs).Pairwise (· < ·) ∧
    (returnedHandles tm cs = [] ∨
      (returnedHandles tm cs).head? = some (tm.index_ : Int)) := by
  induction cs generalizing tm with
  | nil => simp [returnedHandles]
  | cons c cs ih =>
    by_cases hok : c.decodes = true ∧ tm.index_ ≤ kMaxTextureValue_
    · have happ : c.apply tm = .ok ((tm.index_ : Int), { index_ := tm.index_ + 1 }) := by
        cases c with
        | Load decodable =>
          have hd : decodable = true := hok.1
          simp [TexCall.apply, TextureManager.Load, TextureManager.allocate, hd, hok.2]
        | CreateEmptyTexture width height =>
          simp [TexCall.apply, TextureManager.CreateEmptyTexture, TextureManager.allocate,
            hok.2]
      simp only [returnedHandles, happ]
      obtain ⟨h1, h2, _⟩ := ih { index_ := tm.index_ + 1 }
      have hgt : ∀ h ∈ returnedHandles { index_ := tm.index_ + 1 } cs,
          (tm.index_ : Int) < h := by
        intro h hh
        have := h1 h hh
        simp only [Nat.cast_add, Nat.cast_one] at this
        omega
      refine ⟨?_, ?_, ?_⟩
      · intro h hh
        rcases List.mem_cons.mp hh with hh | hh
        · omega
        · exact le_of_lt (hgt h hh)
      · exact List.pairwise_cons.mpr ⟨hgt, h2⟩
      · right
        simp
    · have happ : ∃ err, c.apply tm = .error err := by
        cases c with
        | Load decodable =>
          cases decodable with
          | false => exact ⟨.DecodeError, by simp [TexCall.apply, TextureManager.Load]⟩
          | true =>
            have hcap : ¬ tm.index_ ≤ kMaxTextureValue_ := fun h => hok ⟨rfl, h⟩
            exact ⟨.RegistryFull, by
              simp [TexCall.apply, TextureManager.Load, TextureManager.allocate, hcap]⟩
        | CreateEmptyTexture width height =>
          have hcap : ¬ tm.index_ ≤ kMaxTextureValue_ := fun h => hok ⟨rfl, h⟩
          exact ⟨.RegistryFull, by
            simp [TexCall.apply, TextureManager.CreateEmptyTexture, TextureManager.allocate,
              hcap]⟩
      obtain ⟨err, herr⟩ := happ
      simp only [returnedHandles, herr]
      exact ih tm

theorem returnedHandles_length (tm : TextureManager) (cs : List TexCall)
    (hcap : tm.index_ + cs.length ≤ kMaxTextureValue_ + 1) :
    (returnedHandles tm cs).length = cs.countP TexCall.decodes := by
  induction cs generalizing tm with
  | nil => simp [returnedHandles]
  | cons c cs ih =>
    simp only [List.length_cons] at hcap
    have hle : tm.index_ ≤ kMaxTextureValue_ := by omega
    cases c with
    | Load decodable =>
      cases decodable with
      | false =>
        simp only [returnedHandles, TexCall.apply, TextureManager.Load]
        rw [List.countP_cons_of_neg]
        · exact ih tm (by omega)
        · simp [TexCall.decodes]
      | true =>
        simp only [returnedHandles, TexCall.apply, TextureManager.Load,
          TextureManager.allocate, hle, if_true]
        rw [List.countP_cons_of_pos]
        · simp only [List.length_cons, add_left_inj]
          exact ih _ (by show tm.index_ + 1 + cs.length ≤ _; omega)
        · simp [TexCall.decodes]
    | CreateEmptyTexture width height =>
      simp only [returnedHandles, TexCall.apply, TextureManager.CreateEmptyTexture,
        TextureManager.allocate, hle, if_true]
      rw [List.countP_cons_of_pos]
      · simp only [List.length_cons, add_left_inj]
        exact ih _ (by show tm.index_ + 1 + cs.length ≤ _; omega)
      · simp [TexCall.decodes]

/-- C10: for every sequence of at most `kMaxTextureValue_` calls of `Load` and
`CreateEmptyTexture` on the fresh registry, every call that gets past decoding returns a
handle, the first returned handle is 1, and the returned handles are strictly increasing
in call order and never repeat. -/
theorem handles_strictly_increasing (cs : List TexCall)
    (hcap : cs.length ≤ kMaxTextureValue_) :
    (returnedHandles TextureManager.initial cs).length = cs.countP TexCall.decodes ∧
    (returnedHandles TextureManager.initial cs = [] ∨
      (returnedHandles TextureManager.initial cs).head? = some 1) ∧
    (∀ h ∈ returnedHandles TextureManager.initial cs, 1 ≤ h) ∧
    (returnedHandles TextureManager.initial cs).Pairwise (· < ·) ∧
    (returnedHandles TextureManager.initial cs).Nodup := by
  obtain ⟨h1, h2, h3⟩ := returnedHandles_increasing TextureManager.initial cs
  refine ⟨?_, ?_, ?_, h2, ?_⟩
  · apply returnedHandles_length
    show 1 + cs.length ≤ kMaxTextureValue_ + 1
    omega
  · simpa [TextureManager.initial] using h3
  · simpa [TextureManager.initial] using h1
  · exact h2.imp (fun hlt => ne_of_lt hlt)

/-- Witness of C10: four calls, one of them a file that does not decode, return the
handles 1, 2, 3. -/
theorem handles_strictly_increasing_witness :
    returnedHandles TextureManager.initial
        [TexCall.Load true, TexCall.CreateEmptyTexture 640 360, TexCall.Load false,
         TexCall.Load true] = [1, 2, 3] ∧
    (returnedHandles TextureManager.initial
        [TexCall.Load true, TexCall.CreateEmptyTexture 640 360, TexCall.Load false,
         TexCall.Load true]).Pairwise (· < ·) :=
  ⟨rfl, (handles_strictly_increasing
    [TexCall.Load true, TexCall.CreateEmptyTexture 640 360, TexCall.Load false,
     TexCall.Load true] (by decide)).2.2.2.1⟩

/-! ## Frame of the read-only calls -/

/-- C11, as the claim states it, fails: on a fresh engine handle 7 has no binding, and
both `SetRenderTarget 7` and `ClearRTV 7` leave it bound to slot 0, so the handle map
is not the one before the call. -/
theorem unbound_handle_inserted_counterexample :
    (Engine.initial 0).rtv.rtvHandleMap 7 = none ∧
    (RTVManager.SetRenderTarget 7 (Engine.initial 0)).rtv.rtvHandleMap 7 = some 0 ∧
    (RTVManager.ClearRTV 7 (Engine.initial 0)).rtv.rtvHandleMap 7 = some 0 ∧
    (RTVManager.SetRenderTarget 7 (Engine.initial 0)).rtv.rtvHandleMap ≠
      (Engine.initial 0).rtv.rtvHandleMap ∧
    (RTVManager.ClearRTV 7 (Engine.initial 0)).rtv.rtvHandleMap ≠
      (Engine.initial 0).rtv.rtvHandleMap := by
  refine ⟨rfl, rfl, rfl, ?_, ?_⟩
  · intro h
    have h7 := congrFun h 7
    exact absurd h7 (by decide)
  · intro h
    have h7 := congrFun h 7
    exact absurd h7 (by decide)

/-- C11 amended: `SetRTtoBB` and `ResetResourceBarrier` leave the handle map and
`rtvIndex` unchanged; `SetRenderTarget` and `ClearRTV` leave `rtvIndex` and every
existing binding unchanged, and leave the whole map unchanged when the handle has a
binding; on a handle without one they add the single binding of that handle to 0. -/
theorem bindings_frame (e : Engine) (textureHandle : Int) :
    ((RTVManager.SetRTtoBB e).rtv.rtvHandleMap = e.rtv.rtvHandleMap ∧
      (RTVManager.SetRTtoBB e).rtv.rtvIndex = e.rtv.rtvIndex) ∧
    ((RTVManager.ResetResourceBarrier e).rtv.rtvHandleMap = e.rtv.rtvHandleMap ∧
      (RTVManager.ResetResourceBarrier e).rtv.rtvIndex = e.rtv.rtvIndex) ∧
    ((RTVManager.SetRenderTarget textureHandle e).rtv.rtvIndex = e.rtv.rtvIndex ∧
      (RTVManager.ClearRTV textureHandle e).rtv.rtvIndex = e.rtv.rtvIndex) ∧
    (∀ k v, e.rtv.rtvHandleMap k = some v →
      (RTVManager.SetRenderTarget textureHandle e).rtv.rtvHandleMap k = some v ∧
      (RTVManager.ClearRTV textureHandle e).rtv.rtvHandleMap k = some v) ∧
    (∀ slot, e.rtv.rtvHandleMap textureHandle = some slot →
      (RTVManager.SetRenderTarget textureHandle e).rtv.rtvHandleMap = e.rtv.rtvHandleMap ∧
      (RTVManager.ClearRTV textureHandle e).rtv.rtvHandleMap = e.rtv.rtvHandleMap) ∧
    (e.rtv.rtvHandleMap textureHandle = none →
      (RTVManager.SetRenderTarget textureHandle e).rtv.rtvHandleMap textureHandle = some 0 ∧
      (RTVManager.ClearRTV textureHandle e).rtv.rtvHandleMap textureHandle = some 0 ∧
      ∀ k, k ≠ textureHandle →
        (RTVManager.SetRenderTarget textureHandle e).rtv.rtvHandleMap k =
          e.rtv.rtvHandleMap k ∧
        (RTVManager.ClearRTV textureHandle e).rtv.rtvHandleMap k = e.rtv.rtvHandleMap k) := by
  have hreset := ResetResourceBarrier_rtv e
  have hset : (RTVManager.SetRenderTarget textureHandle e).rtv.rtvHandleMap =
      (mapIndex e.rtv.rtvHandleMap textureHandle).2 := by
    show (mapIndex (RTVManager.ResetResourceBarrier e).rtv.rtvHandleMap textureHandle).2 = _
    rw [hreset]
  have hclear : (RTVManager.ClearRTV textureHandle e).rtv.rtvHandleMap =
      (mapIndex e.rtv.rtvHandleMap textureHandle).2 := rfl
  refine ⟨⟨?_, ?_⟩, ⟨?_, ?_⟩, ⟨?_, rfl⟩, ?_, ?_, ?_⟩
  · show (RTVManager.ResetResourceBarrier e).rtv.rtvHandleMap = _
    rw [hreset]
  · show (RTVManager.ResetResourceBarrier e).rtv.rtvIndex = _
    rw [hreset]
  · rw [hreset]
  · rw [hreset]
  · show (RTVManager.ResetResourceBarrier e).rtv.rtvIndex = _
    rw [hreset]
  · intro k v hk
    rw [hset, hclear]
    exact ⟨mapIndex_keeps _ _ _ _ hk, mapIndex_keeps _ _ _ _ hk⟩
  · intro slot hslot
    rw [hset, hclear]
    simp [mapIndex, hslot]
  · intro hnone
    rw [hset, hclear]
    simp only [mapIndex, hnone, mapAssign, if_true, true_and]
    intro k hk
    simp [hk]

/-- Witness of C11 amended: binding the created handle 1 again changes no binding. -/
theorem bindings_frame_witness :
    (RTVManager.CreateRenderTargetTexture 640 360 (Engine.initial 0)).2.rtv.rtvHandleMap 1 =
      some 2 ∧
    (RTVManager.SetRenderTarget 1
        (RTVManager.CreateRenderTargetTexture 640 360 (Engine.initial 0)).2).rtv.rtvHandleMap =
      (RTVManager.CreateRenderTargetTexture 640 360 (Engine.initial 0)).2.rtv.rtvHandleMap :=
  ⟨rfl, ((bindings_frame (RTVManager.CreateRenderTargetTexture 640 360 (Engine.initial 0)).2
    1).2.2.2.2.1 2 rfl).1⟩

/-! ## Particle update loop -/

theorem particleIteration_bounds (isParticleUpdate : Bool) (s : ParticleLoop)
    (particle : Particle) (hn : s.numInstance ≤ numMaxInstance_)
    (hw : ∀ w ∈ s.writes, w.index ≤ numMaxInstance_ ∧
      ∀ i, w = BufferWrite.copy i → i < numMaxInstance_) :
    (particleIteration isParticleUpdate s particle).numInstance ≤ numMaxInstance_ ∧
    ∀ w ∈ (particleIteration isParticleUpdate s particle).writes,
      w.index ≤ numMaxInstance_ ∧ ∀ i, w = BufferWrite.copy i → i < numMaxInstance_ := by
  unfold particleIteration
  by_cases hdead : particle.lifeTime ≤ particle.currentTime
  · simp only [hdead, if_true]
    exact ⟨hn, hw⟩
  · simp only [hdead, if_false]
    have hcopy : ∀ w, w = BufferWrite.copy s.numInstance → s.numInstance < numMaxInstance_ →
        w.index ≤ numMaxInstance_ ∧ ∀ i, w = BufferWrite.copy i → i < numMaxInstance_ := by
      intro w hweq hroom
      subst hweq
      exact ⟨le_of_lt hroom, by intro i hi; cases hi; exact hroom⟩
    have halpha : ∀ w n, w = BufferWrite.alpha n → n ≤ numMaxInstance_ →
        w.index ≤ numMaxInstance_ ∧ ∀ i, w = BufferWrite.copy i → i < numMaxInstance_ := by
      intro w n hweq hle
      subst hweq
      exact ⟨hle, by intro i hi; cases hi⟩
    by_cases hroom : s.numInstance < numMaxInstance_
    · cases isParticleUpdate with
      | false =>
        simp only [hroom, if_true, Bool.false_eq_true, if_false]
        refine ⟨hroom, ?_⟩
        intro w hmem
        rcases List.mem_append.mp hmem with hmem | hmem
        · exact hw w hmem
        · exact hcopy w (List.mem_singleton.mp hmem) hroom
      | true =>
        simp only [hroom, if_true]
        refine ⟨hroom, ?_⟩
        intro w hmem
        rcases List.mem_append.mp hmem with hmem | hmem
        · rcases List.mem_append.mp hmem with hmem | hmem
          · exact hw w hmem
          · exact hcopy w (List.mem_singleton.mp hmem) hroom
        · exact halpha w _ (List.mem_singleton.mp hmem) hroom
    · cases isParticleUpdate with
      | false =>
        simp only [hroom, if_false, Bool.false_eq_true]
        exact ⟨hn, hw⟩
      | true =>
        simp only [hroom, if_false, if_true]
        refine ⟨hn, ?_⟩
        intro w hmem
        rcases List.mem_append.mp hmem with hmem | hmem
        · exact hw w hmem
        · exact halpha w _ (List.mem_singleton.mp hmem) hn

theorem particleFold_bounds (isParticleUpdate : Bool) (particles : List Particle)
    (s : ParticleLoop) (hn : s.numInstance ≤ numMaxInstance_)
    (hw : ∀ w ∈ s.writes, w.index ≤ numMaxInstance_ ∧
      ∀ i, w = BufferWrite.copy i → i < numMaxInstance_) :
    (particles.foldl (particleIteration isParticleUpdate) s).numInstance ≤ numMaxInstance_ ∧
    ∀ w ∈ (particles.foldl (particleIteration isParticleUpdate) s).writes,
      w.index ≤ numMaxInstance_ ∧ ∀ i, w = BufferWrite.copy i → i < numMaxInstance_ := by
  induction particles generalizing s with
  | nil => exact ⟨hn, hw⟩
  | cons p ps ih =>
    obtain ⟨h1, h2⟩ := particleIteration_bounds isParticleUpdate s p hn hw
    exact ih _ h1 h2

/-- What does hold of the loop for every particle list and either value of
`isParticleUpdate`: `numInstance` never exceeds `numMaxInstance_`, every copy of
`WVP`, `World` and `color` goes to an index below `numMaxInstance_`, and every write of
`color.w` goes to an index of at most `numMaxInstance_`. -/
theorem particleUpdateLoop_bounds (isParticleUpdate : Bool) (particles : List Particle) :
    (particleUpdateLoop isParticleUpdate particles).numInstance ≤ numMaxInstance_ ∧
    ∀ w ∈ (particleUpdateLoop isParticleUpdate particles).writes,
      w.index ≤ numMaxInstance_ ∧ ∀ i, w = BufferWrite.copy i → i < numMaxInstance_ :=
  particleFold_bounds isParticleUpdate particles _ (Nat.zero_le _) (by simp)

set_option maxRecDepth 100000 in
/-- C12 fails on the code: with 100 live particles and `isParticleUpdate` set, the copy
for the hundredth particle raises `numInstance` to 100 and the write of
`data_[numInstance].color.w` that follows goes to index 100, which is not below
`numMaxInstance_`. -/
theorem alpha_write_past_buffer :
    numMaxInstance_ = 100 ∧
    (particleUpdateLoop true
        (List.replicate 100 { lifeTime := 1, currentTime := 0 })).numInstance = 100 ∧
    (particleUpdateLoop true
        (List.replicate 100 { lifeTime := 1, currentTime := 0 })).writes.getLast? =
      some (BufferWrite.alpha 100) ∧
    ¬ (BufferWrite.alpha 100).index < numMaxInstance_ := by
  refine ⟨rfl, ?_, ?_, by decide⟩
  · decide
  · decide

/-! ## Barriers in step with the tracked state -/

/-- One call with a non-negative handle keeps the stream invariant and keeps every
writable resource equal to the current one. No binding of the handle is asked for. -/
theorem step_keeps_stream (t : Trace) (c : Call) (hc : c.handleNonneg = true)
    (hs : StreamInv t.engine.dx.commandList)
    (hw : ∀ r, trackedState t.engine.dx.commandList r = .RenderTargetWritable →
      r = t.engine.currentResource) :
    StreamInv (t.step c).engine.dx.commandList ∧
    ∀ r, trackedState (t.step c).engine.dx.commandList r = .RenderTargetWritable →
      r = (t.step c).engine.currentResource := by
  cases c with
  | Load decodable =>
    by_cases hcap : decodable = true ∧ t.engine.tex.index_ ≤ kMaxTextureValue_
    · rw [Trace.step_Load_ok t decodable hcap.1 hcap.2]
      exact ⟨hs, hw⟩
    · rw [Trace.step_Load_fail t decodable hcap]
      exact ⟨hs, hw⟩
  | CreateRenderTargetTexture width height =>
    by_cases hcap : t.engine.tex.index_ ≤ kMaxTextureValue_
    · simp only [Trace.step, CreateRenderTargetTexture_ok_eq _ _ _ hcap]
      exact ⟨hs, hw⟩
    · simp only [Trace.step, CreateRenderTargetTexture_full_eq _ _ _ hcap]
      exact ⟨hs, hw⟩
  | SetRenderTarget textureHandle =>
    have hpos : 0 ≤ textureHandle := by simpa [Call.handleNonneg] using hc
    exact SetRenderTarget_ok t.engine textureHandle hpos hs hw
  | SetRTtoBB => exact SetRTtoBB_ok t.engine hs hw
  | ResetResourceBarrier =>
    obtain ⟨h1, h2⟩ := ResetResourceBarrier_ok t.engine hs hw
    exact ⟨h1, fun r hr => absurd hr (h2 r)⟩
  | ClearRTV textureHandle => exact ClearRTV_ok t.engine textureHandle hs hw

theorem run_keeps_stream (t : Trace) (cs : List Call)
    (hcs : cs.all Call.handleNonneg = true)
    (hs : StreamInv t.engine.dx.commandList)
    (hw : ∀ r, trackedState t.engine.dx.commandList r = .RenderTargetWritable →
      r = t.engine.currentResource) :
    StreamInv (t.run cs).engine.dx.commandList ∧
    ∀ r, trackedState (t.run cs).engine.dx.commandList r = .RenderTargetWritable →
      r = (t.run cs).engine.currentResource := by
  induction cs generalizing t with
  | nil => exact ⟨hs, hw⟩
  | cons c cs ih =>
    simp only [List.all_cons, Bool.and_eq_true] at hcs
    obtain ⟨h1, h2⟩ := step_keeps_stream t c hcs.1 hs hw
    exact ih (t.step c) hcs.2 h1 h2

/-- Why the handle of `SetRenderTarget` has to be non-negative: a negative handle is
taken for the back-buffer sentinel by the next undo, so binding texture -5 twice records
its barrier from `ShaderReadable` while it is tracked `RenderTargetWritable`. -/
theorem negative_handle_out_of_step :
    desynced initialState ((Trace.initial 0).run
        [Call.SetRenderTarget (-5), Call.SetRenderTarget (-5)]).engine.dx.commandList =
      [Command.ResourceBarrier (.backBuffer 0) .RenderTargetWritable .PresentReady,
       Command.ResourceBarrier (.backBuffer 0) .RenderTargetWritable .PresentReady,
       Command.ResourceBarrier (.texture (-5)) .ShaderReadable .RenderTargetWritable] := by
  rfl

/-- C8 amended: for every finite sequence of public calls from the initial state in
which every `SetRenderTarget` is given a non-negative handle (bound or not), a recorded
barrier whose `StateBefore` differs from the tracked state of its resource has
`StateBefore = RenderTargetWritable`, the shape of the undo barrier; no barrier with
`StateBefore` `ShaderReadable` or `PresentReady` is out of step. -/
theorem barrier_desync_only_undo (backBufferIndex : Nat) (cs : List Call)
    (hcs : cs.all Call.handleNonneg = true) :
    (∀ c ∈ desynced initialState
        ((Trace.initial backBufferIndex).run cs).engine.dx.commandList,
      ∃ res after, c = Command.ResourceBarrier res .RenderTargetWritable after) ∧
    (∀ res after,
      Command.ResourceBarrier res .ShaderReadable after ∉ desynced initialState
        ((Trace.initial backBufferIndex).run cs).engine.dx.commandList ∧
      Command.ResourceBarrier res .PresentReady after ∉ desynced initialState
        ((Trace.initial backBufferIndex).run cs).engine.dx.commandList) := by
  have hinit := Trace.consistent_initial backBufferIndex
  have hrun := (run_keeps_stream (Trace.initial backBufferIndex) cs hcs hinit.stream
    hinit.writable_current).1.undo_only
  refine ⟨hrun, ?_⟩
  intro res after
  constructor
  · intro hmem
    obtain ⟨res2, after2, heq⟩ := hrun _ hmem
    cases heq
  · intro hmem
    obtain ⟨res2, after2, heq⟩ := hrun _ hmem
    cases heq

/-- Witness of C8 amended: binding a loaded texture that has no render-target view, then
the back buffer; the one barrier out of step is the first undo barrier. -/
theorem barrier_desync_only_undo_witness :
    [Call.Load true, Call.SetRenderTarget 1, Call.SetRTtoBB].all Call.handleNonneg = true ∧
    desynced initialState ((Trace.initial 0).run
        [Call.Load true, Call.SetRenderTarget 1, Call.SetRTtoBB]).engine.dx.commandList =
      [Command.ResourceBarrier (.backBuffer 0) .RenderTargetWritable .PresentReady] ∧
    Command.ResourceBarrier (.texture 1) .ShaderReadable .RenderTargetWritable ∉
      desynced initialState ((Trace.initial 0).run
        [Call.Load true, Call.SetRenderTarget 1, Call.SetRTtoBB]).engine.dx.commandList :=
  ⟨by decide, rfl, ((barrier_desync_only_undo 0
    [Call.Load true, Call.SetRenderTarget 1, Call.SetRTtoBB] (by decide)).2
      (.texture 1) .RenderTargetWritable).1⟩

end CG3
